import Mathlib

/-!
Verification of the classifier command-line dispatch shell.

Shallow embedding of src/classifier/__init__.py and src/classifier/utils.py:
pure functions become Lean functions, the outcomes of external calls
(subprocess, importlib, pkg_resources) are passed in explicitly as values of
sum types, and an uncaught Python exception is an `Except.error` result.
-/

/-! ### File-Access Adapter (utils.opener, utils.py lines 76-98) -/

/-- The argument handed to the function returned by opener: either one of the
two standard streams or a path string. -/
inductive FileTarget
  | stdoutT
  | stdinT
  | path (f : String)
deriving DecidableEq

/-- The stream produced by open_file: a standard stream, or a file opened with
the bz2 codec, the gzip codec, or the plain built-in open. -/
inductive FileStream
  | stdoutS
  | stdinS
  | bz2open (f mode : String)
  | gzopen (f mode : String)
  | plainopen (f mode : String)
deriving DecidableEq

/-- Python str.endswith, on the underlying character list. -/
def endswith (s suffix : String) : Bool :=
  suffix.data.isSuffixOf s.data

/-- Python membership test of a character in a string, as in the expression
checking the letter r in the mode string. -/
def containsChar (s : String) (c : Char) : Bool :=
  s.data.contains c

/-- Embedding of the inner open_file function produced by utils.opener(mode),
utils.py lines 86-96, mirroring its if chain in order. -/
def open_file (mode : String) : FileTarget → FileStream
  | .stdoutT => .stdoutS
  | .stdinT => .stdinS
  | .path f =>
    if f = "-" then (if containsChar mode 'r' then .stdinS else .stdoutS)
    else if endswith f ".bz2" then .bz2open f mode
    else if endswith f ".gz" then .gzopen f mode
    else .plainopen f mode

/-! ### Logging configuration (setup_logging and parse_args, __init__.py) -/

/-- Python logging.ERROR. -/
def ERROR : Nat := 40

/-- Python logging.WARNING. -/
def WARNING : Nat := 30

/-- Python logging.INFO. -/
def INFO : Nat := 20

/-- Python logging.DEBUG. -/
def DEBUG : Nat := 10

/-- The verbosity-to-level dictionary lookup with default DEBUG,
__init__.py lines 81-86. -/
def loglevel : Nat → Nat
  | 0 => ERROR
  | 1 => WARNING
  | 2 => INFO
  | 3 => DEBUG
  | _ => DEBUG

/-- One command-line token as it affects the verbosity value: the counted
verbose flag, the quiet flag, or any other token (which argparse routes to
other destinations and which leaves verbosity untouched). -/
inductive ArgTok
  | verbose
  | quiet
  | other (s : String)
deriving DecidableEq

/-- Effect of one token on the verbosity destination: the count action adds
one, the store_const action of the quiet flag stores the constant 0,
__init__.py lines 110-121. -/
def stepVerbosity (v : Nat) : ArgTok → Nat
  | .verbose => v + 1
  | .quiet => 0
  | .other _ => v

/-- The verbosity value argparse accumulates left to right over the argument
list, starting from the default 0. -/
def parseVerbosity (argv : List ArgTok) : Nat :=
  argv.foldl stepVerbosity 0

/-! ### Version Resolver (version, __init__.py lines 179-223) -/

/-- Character class of the tag and commit groups of the describe regex. -/
def isTagChar (c : Char) : Bool :=
  c.isDigit || c = '.'

/-- Semantics of the describe pattern of __init__.py line 202 applied to
text, as the docstring of lines 194-199 intends: the leftmost match starts at
the first letter v (everything after it is optional, so a match exists
exactly when a v occurs); the tag group greedily takes digits and dots, an
optional dash is consumed, and the commit group greedily takes digits and
dots. Returns the two named groups, or none when the search finds no match.
On Python 3 this parse never actually runs on the query output, because
check_output returns bytes and re.search with a str pattern raises TypeError
first; gitMatch expresses what the pattern would extract from the decoded
text. -/
def gitMatch : List Char → Option (String × String)
  | [] => none
  | c :: cs =>
    if c = 'v' then
      let tag := cs.takeWhile isTagChar
      let rest1 := cs.dropWhile isTagChar
      let rest2 := match rest1 with
        | '-' :: r => r
        | r => r
      let commit := rest2.takeWhile isTagChar
      some (⟨tag⟩, ⟨commit⟩)
    else gitMatch cs

/-- Outcome of the pkg_resources.require call: a version string, a
DistributionNotFound exception, or any other exception (for example a
VersionConflict raised while resolving requirements). -/
inductive PkgOutcome
  | ok (v : String)
  | distNotFound (msg : String)
  | otherExc (msg : String)
deriving DecidableEq

/-- A bytes value, as subprocess.check_output returns on Python 3; the code
never decodes it. Its content is carried as the character list of the
corresponding text so that the intended decoded parse can be stated about
the same value. -/
structure PyBytes where
  raw : List Char
deriving DecidableEq

/-- The external outcomes version() depends on: the result of each of the two
subprocess.check_output invocations (the output bytes, or the message of the
exception the call raised) and the result of the installed-package lookup. -/
structure VersionEnv where
  git1 : Except String PyBytes
  git2 : Except String PyBytes
  pkg : PkgOutcome

/-- One iteration of the loop of __init__.py lines 200-212 on Python 3: if
check_output raised, the exception is caught and logged and the loop
continues; if check_output returned, its result is bytes, and re.search at
line 205 applies the str pattern of line 202 to it, which unconditionally
raises TypeError (a string pattern cannot be used on a bytes-like object) —
also caught by the bare except of line 211. So no iteration ever assigns a
version: the tag/commit assignment of lines 206-209 is dead code. -/
def attemptGit (r : Except String PyBytes) : Option String :=
  match r with
  | .error _ => none
  | .ok _ => none

/-- The loop over the two git commands, __init__.py lines 200-212: an
iteration that assigns a version would break the loop; every failure falls
through to the next command. -/
def versionLoop : List (Except String PyBytes) → Option String
  | [] => none
  | r :: rest =>
    match attemptGit r with
    | some v => some v
    | none => versionLoop rest

/-- Embedding of version(), __init__.py lines 179-223. The package lookup
runs only when the git loop left version unset; its DistributionNotFound
exception is caught (lines 220-221) but any other exception propagates, which
the error constructor records. The final line returns the resolved string or
the constant 0.0.0 whenever the result is None or empty (Python falsiness). -/
def version (env : VersionEnv) : Except String String :=
  match versionLoop [env.git1, env.git2] with
  | some v => .ok (if v = "" then "0.0.0" else v)
  | none =>
    match env.pkg with
    | .ok pv => .ok (if pv = "" then "0.0.0" else pv)
    | .distNotFound _ => .ok "0.0.0"
    | .otherExc e => .error e

/-- A concrete environment in which both git commands fail and the package
lookup raises a VersionConflict, an exception the code does not catch. -/
def badEnv : VersionEnv :=
  ⟨.error "git not found", .error "git not found", .otherExc "VersionConflict"⟩

/-! ### Grouping Utility (utils.groupbyl, utils.py lines 101-108) -/

/-- The key-comparison relation the Python built-in sorted uses when called
with a key function: compare the keys of the elements. -/
def keyle {α κ : Type} [LinearOrder κ] (key : α → κ) : α → α → Prop :=
  fun a b => key a ≤ key b

instance keyleDecidable {α κ : Type} [LinearOrder κ] (key : α → κ) :
    DecidableRel (keyle key) :=
  fun a b => inferInstanceAs (Decidable (key a ≤ key b))

instance keyleTotal {α κ : Type} [LinearOrder κ] (key : α → κ) :
    IsTotal α (keyle key) :=
  ⟨fun a b => le_total (key a) (key b)⟩

instance keyleTrans {α κ : Type} [LinearOrder κ] (key : α → κ) :
    IsTrans α (keyle key) :=
  ⟨fun _ _ _ hab hbc => le_trans hab hbc⟩

/-- The Python built-in sorted(li, key=key): the stable sort of the list by
the key values. A total preorder has exactly one stable sorted rearrangement,
so any stable sorting algorithm embeds it; insertion sort is stable because
each element is inserted before the equal-key elements of the already sorted
suffix, all of which came later in the input. -/
def pySorted {α κ : Type} [LinearOrder κ] (key : α → κ) (li : List α) :
    List α :=
  List.insertionSort (keyle key) li

/-- itertools.groupby with the same key function, on a list: split into
maximal runs of consecutive elements with equal key, each run labelled with
its key, with each group materialized by list(l) as on utils.py line 104. -/
def pyGroupby {α κ : Type} [DecidableEq κ] (key : α → κ) :
    List α → List (κ × List α)
  | [] => []
  | x :: t =>
    match pyGroupby key t with
    | [] => [(key x, [x])]
    | (k, g) :: rest =>
      if key x = k then (k, x :: g) :: rest
      else (key x, [x]) :: (k, g) :: rest

/-- Embedding of utils.groupbyl with as_dict left False: sort by key, then
group consecutive equal keys, utils.py lines 102-104. -/
def groupbyl {α κ : Type} [LinearOrder κ] (li : List α) (key : α → κ) :
    List (κ × List α) :=
  pyGroupby key (pySorted key li)

/-- The Python dict constructor applied to a list of pairs: bindings are
inserted left to right and a later binding for a key overwrites an earlier
one, so a lookup returns the rightmost value bound to the key. -/
def pyDict {κ β : Type} [DecidableEq κ] : List (κ × β) → κ → Option β
  | [], _ => none
  | p :: ps, k =>
    match pyDict ps k with
    | some v => some v
    | none => if k = p.1 then some p.2 else none

/-! ### Subcommand Registry (parse_subcommands, __init__.py lines 126-176) -/

/-- Result of importlib.import_module for one plugin: the module (its
docstring and its action handler, the latter kept abstract as a tag), or the
message of the exception the import raised. -/
structure ModInfo where
  doc : String
  handler : String
deriving DecidableEq

instance exceptDecEq {ε α : Type} [DecidableEq ε] [DecidableEq α] :
    DecidableEq (Except ε α) := fun x y =>
  match x, y with
  | .error a, .error b =>
    if h : a = b then isTrue (congrArg Except.error h)
    else isFalse (fun hc => h (Except.error.inj hc))
  | .error _, .ok _ => isFalse (fun hc => Except.noConfusion hc)
  | .ok _, .error _ => isFalse (fun hc => Except.noConfusion hc)
  | .ok a, .ok b =>
    if h : a = b then isTrue (congrArg Except.ok h)
    else isFalse (fun hc => h (Except.ok.inj hc))

/-- One discoverable plugin module: its name as listed by pkgutil and the
outcome of importing it. -/
structure PlugMod where
  name : String
  imp : Except String ModInfo
deriving DecidableEq

/-- One entry of the subparsers collection: the subcommand name and its
positional arguments as (argument name, nargs) pairs; the grammar each module
contributes through build_parser is kept abstract. -/
structure Subcmd where
  name : String
  positionals : List (String × Nat)
deriving DecidableEq

/-- The state parse_subcommands accumulates: the subparsers added so far, the
actions mapping from subcommand name to handler, and the lines written by
log.error. -/
structure SubResult where
  subcmds : List Subcmd
  actions : List (String × String)
  logErrors : List String
deriving DecidableEq

/-- The help pseudo-subcommand added on __init__.py lines 134-136, with its
single positional argument named action taking exactly one value. -/
def helpSubcmd : Subcmd :=
  ⟨"help", [("action", 1)]⟩

/-- The module filtering of __init__.py lines 139-148: the modules whose name
appears literally in the argument list; if none does, all modules are
considered. -/
def considered (modules : List PlugMod) (argv : List String) : List PlugMod :=
  let commands := modules.filter (fun m => argv.contains m.name)
  if commands.isEmpty then modules else commands

/-- One iteration of the discovery loop, __init__.py lines 148-174: a failed
failed import logs the error and registers nothing; a successful one adds a
subparser and registers the handler under the module name. -/
def addModule (st : SubResult) (m : PlugMod) : SubResult :=
  match m.imp with
  | .error e => { st with logErrors := st.logErrors ++ [e] }
  | .ok info =>
      { st with
        subcmds := st.subcmds ++ [⟨m.name, []⟩],
        actions := st.actions ++ [(m.name, info.handler)] }

/-- Embedding of parse_subcommands, __init__.py lines 126-176: the help
subparser is registered first, unconditionally, then the discovery loop runs
over the considered modules. -/
def parse_subcommands (modules : List PlugMod) (argv : List String) :
    SubResult :=
  (considered modules argv).foldl addModule ⟨[helpSubcmd], [], []⟩

/-! ### Dispatcher (main, __init__.py lines 38-73) -/

/-- Observable outcome of one dispatch: argparse printed the help text of a
subparser and exited, argparse printed the top-level help and exited, the
handler registered for a subcommand ran on the remaining tokens, argparse
exited with a usage error, or the recursion bound ran out. -/
inductive MainResult
  | subHelp (name : String)
  | mainHelp
  | handled (name handler : String) (rest : List String)
  | usageError
  | outOfFuel
deriving DecidableEq

/-- Embedding of main, __init__.py lines 38-73, with an explicit bound on the
re-dispatch depth. The grammar is assembled by parse_subcommands for the
given argument list; the first token selects a subparser; a help flag among
the remaining tokens makes argparse print that subparser help and exit; the
help pseudo-subcommand with its single action argument re-enters main on the
synthesized list [action, -h] (line 69); any other selected subcommand runs
its registered handler; a leading help flag prints the top-level help. -/
def mainF (modules : List PlugMod) : Nat → List String → MainResult
  | 0, _ => .outOfFuel
  | fuel + 1, argv =>
    let st := parse_subcommands modules argv
    match argv with
    | [] => .usageError
    | first :: rest =>
      if (st.subcmds.map Subcmd.name).contains first then
        if rest.contains "-h" || rest.contains "--help" then .subHelp first
        else if first = "help" then
          match rest with
          | [target] => mainF modules fuel [target, "-h"]
          | _ => .usageError
        else
          match st.actions.lookup first with
          | some h => .handled first h rest
          | none => .usageError
      else if first = "-h" || first = "--help" then .mainHelp
      else .usageError

/-- The dispatcher entry point: depth two suffices because the only
re-dispatch, the help rewrite, produces an argument list that dispatches
without recursing again. -/
def mainRun (modules : List PlugMod) (argv : List String) : MainResult :=
  mainF modules 2 argv

/-- A concrete plugin list with one module that imports successfully, used to
instantiate the dispatch-equivalence theorem. -/
def demoModules : List PlugMod :=
  [⟨"classify", .ok ⟨"classify sequences", "classifyAction"⟩⟩]

/-- A concrete environment in which both git commands fail and the package
lookup raises DistributionNotFound, the one exception the lookup catches. -/
def dnfEnv : VersionEnv :=
  ⟨.error "no git", .error "no git", .distNotFound "classifier"⟩

/-- The subparser entry a successfully imported module contributes. -/
def subcmdOf (m : PlugMod) : Option Subcmd :=
  match m.imp with
  | .ok _ => some ⟨m.name, []⟩
  | .error _ => none

/-- The actions entry a successfully imported module contributes. -/
def actionOf (m : PlugMod) : Option (String × String) :=
  match m.imp with
  | .ok i => some (m.name, i.handler)
  | .error _ => none

/-- The line log.error writes for a module whose import raised. -/
def errorOf (m : PlugMod) : Option String :=
  match m.imp with
  | .ok _ => none
  | .error e => some e

/-! ## Helper lemmas -/

theorem foldl_addModule_spec (ms : List PlugMod) :
    ∀ st : SubResult,
      (ms.foldl addModule st).subcmds = st.subcmds ++ ms.filterMap subcmdOf
      ∧ (ms.foldl addModule st).actions = st.actions ++ ms.filterMap actionOf
      ∧ (ms.foldl addModule st).logErrors
          = st.logErrors ++ ms.filterMap errorOf := by
  induction ms with
  | nil => intro st; simp
  | cons m ms ih =>
    intro st
    cases hm : m.imp with
    | error e =>
      obtain ⟨ih1, ih2, ih3⟩ := ih { st with logErrors := st.logErrors ++ [e] }
      refine ⟨?_, ?_, ?_⟩ <;>
        simp [List.foldl_cons, addModule, hm, ih1, ih2, ih3, subcmdOf,
          actionOf, errorOf, List.filterMap_cons]
    | ok info =>
      obtain ⟨ih1, ih2, ih3⟩ := ih
        { st with
          subcmds := st.subcmds ++ [⟨m.name, []⟩],
          actions := st.actions ++ [(m.name, info.handler)] }
      refine ⟨?_, ?_, ?_⟩ <;>
        simp [List.foldl_cons, addModule, hm, ih1, ih2, ih3, subcmdOf,
          actionOf, errorOf, List.filterMap_cons]

theorem parse_subcommands_subcmds (modules : List PlugMod)
    (argv : List String) :
    (parse_subcommands modules argv).subcmds
      = helpSubcmd :: (considered modules argv).filterMap subcmdOf := by
  have h := (foldl_addModule_spec (considered modules argv)
    ⟨[helpSubcmd], [], []⟩).1
  simpa [parse_subcommands] using h

theorem filter_key_orderedInsert {α κ : Type} [LinearOrder κ] (key : α → κ)
    (k : κ) (x : α) (s : List α) :
    (List.orderedInsert (keyle key) x s).filter (fun a => decide (key a = k))
      = if key x = k
        then x :: s.filter (fun a => decide (key a = k))
        else s.filter (fun a => decide (key a = k)) := by
  induction s with
  | nil =>
    by_cases h : key x = k <;> simp [List.orderedInsert, h]
  | cons y t ih =>
    by_cases hxy : keyle key x y
    · by_cases hx : key x = k <;>
        by_cases hy : key y = k <;>
          simp [List.orderedInsert, List.filter_cons, hxy, hx, hy]
    · have hyx : key y < key x := lt_of_not_le hxy
      by_cases hx : key x = k
      · have hy : ¬ (key y = k) := by
          intro he
          exact absurd (hx ▸ he ▸ le_refl (key y)) (not_le_of_lt hyx)
        simp [List.orderedInsert, List.filter_cons, hxy, hx, hy, ih]
      · by_cases hy : key y = k <;>
          simp [List.orderedInsert, List.filter_cons, hxy, hx, hy, ih]

theorem filter_key_pySorted {α κ : Type} [LinearOrder κ] (key : α → κ)
    (k : κ) (li : List α) :
    (pySorted key li).filter (fun a => decide (key a = k))
      = li.filter (fun a => decide (key a = k)) := by
  induction li with
  | nil => rfl
  | cons x t ih =>
    show (List.orderedInsert (keyle key) x (pySorted key t)).filter _ = _
    rw [filter_key_orderedInsert]
    by_cases hx : key x = k <;> simp [List.filter_cons, hx, ih]

theorem pySorted_sorted {α κ : Type} [LinearOrder κ] (key : α → κ)
    (li : List α) : (pySorted key li).Sorted (keyle key) :=
  List.sorted_insertionSort (keyle key) li

theorem pyGroupby_head_key {α κ : Type} [DecidableEq κ] (key : α → κ)
    (x : α) (t : List α) :
    ∃ g rest, pyGroupby key (x :: t) = (key x, g) :: rest := by
  cases h : pyGroupby key t with
  | nil => exact ⟨[x], [], by simp [pyGroupby, h]⟩
  | cons p rest =>
    rcases p with ⟨k, g⟩
    by_cases hk : key x = k
    · exact ⟨x :: g, rest, by simp [pyGroupby, h, hk]⟩
    · exact ⟨[x], (k, g) :: rest, by simp [pyGroupby, h, hk]⟩

theorem pyGroupby_flatten {α κ : Type} [DecidableEq κ] (key : α → κ)
    (l : List α) : ((pyGroupby key l).map Prod.snd).flatten = l := by
  induction l with
  | nil => rfl
  | cons x t ih =>
    cases h : pyGroupby key t with
    | nil =>
      rw [h] at ih
      simp only [List.map_nil, List.flatten_nil] at ih
      simp [pyGroupby, h, ← ih]
    | cons p rest =>
      rcases p with ⟨k, g⟩
      rw [h] at ih
      simp only [List.map_cons, List.flatten_cons] at ih
      by_cases hk : key x = k <;>
        simp [pyGroupby, h, hk, List.flatten_cons, ih]

theorem pyGroupby_cons {α κ : Type} [DecidableEq κ] (key : α → κ)
    (x : α) (t : List α) :
    pyGroupby key (x :: t)
      = match pyGroupby key t with
        | [] => [(key x, [x])]
        | (k, g) :: rest =>
          if key x = k then (k, x :: g) :: rest
          else (key x, [x]) :: (k, g) :: rest := rfl

theorem pyGroupby_keys_pairwise {α κ : Type} [LinearOrder κ] (key : α → κ) :
    ∀ l : List α, l.Sorted (keyle key) →
      (pyGroupby key l).Pairwise (fun p q => p.1 < q.1) := by
  intro l
  induction l with
  | nil => intro _; simp [pyGroupby]
  | cons x t ih =>
    intro hs
    have hst : t.Sorted (keyle key) := hs.of_cons
    have hsx : ∀ a ∈ t, key x ≤ key a :=
      fun a ha => List.rel_of_sorted_cons hs a ha
    cases t with
    | nil => simp [pyGroupby]
    | cons y t' =>
      obtain ⟨g0, rest0, hg⟩ := pyGroupby_head_key key y t'
      have ihp := ih hst
      rw [hg] at ihp
      rcases List.pairwise_cons.mp ihp with ⟨hrel, hrest⟩
      by_cases hk : key x = key y
      · have hres : pyGroupby key (x :: y :: t')
            = (key y, x :: g0) :: rest0 := by
          rw [pyGroupby_cons, hg]
          simp [hk]
        rw [hres]
        exact List.pairwise_cons.mpr ⟨fun q hq => hrel q hq, hrest⟩
      · have hlt : key x < key y :=
          lt_of_le_of_ne (hsx y (List.mem_cons_self y t')) hk
        have hres : pyGroupby key (x :: y :: t')
            = (key x, [x]) :: (key y, g0) :: rest0 := by
          rw [pyGroupby_cons, hg]
          simp [hk]
        rw [hres]
        refine List.pairwise_cons.mpr ⟨?_, ihp⟩
        intro q hq
        rcases List.mem_cons.mp hq with h1 | h2
        · rw [h1]
          exact hlt
        · exact lt_trans hlt (hrel q h2)

theorem pyGroupby_filter {α κ : Type} [LinearOrder κ] (key : α → κ) :
    ∀ l : List α, l.Sorted (keyle key) →
      ∀ p ∈ pyGroupby key l,
        p.2 = l.filter (fun a => decide (key a = p.1)) := by
  intro l
  induction l with
  | nil => intro _ p hp; simp [pyGroupby] at hp
  | cons x t ih =>
    intro hs p hp
    have hst : t.Sorted (keyle key) := hs.of_cons
    have hsx : ∀ a ∈ t, key x ≤ key a :=
      fun a ha => List.rel_of_sorted_cons hs a ha
    cases t with
    | nil =>
      simp [pyGroupby] at hp
      subst hp
      simp
    | cons y t' =>
      obtain ⟨g0, rest0, hg⟩ := pyGroupby_head_key key y t'
      have hpair := pyGroupby_keys_pairwise key (y :: t') hst
      rw [hg] at hpair
      rcases List.pairwise_cons.mp hpair with ⟨hrel, _⟩
      have hxy : key x ≤ key y := hsx y (List.mem_cons_self y t')
      by_cases hk : key x = key y
      · have hres : pyGroupby key (x :: y :: t')
            = (key y, x :: g0) :: rest0 := by
          rw [pyGroupby_cons, hg]
          simp [hk]
        rw [hres] at hp
        rcases List.mem_cons.mp hp with hp1 | hp2
        · subst hp1
          have hg0 : g0 = (y :: t').filter
              (fun a => decide (key a = key y)) := by
            have hmem : (key y, g0) ∈ pyGroupby key (y :: t') := by
              rw [hg]; exact List.mem_cons_self _ _
            simpa using ih hst (key y, g0) hmem
          simp [List.filter_cons, hk, ← hg0]
        · have hpk : key y < p.1 := hrel p hp2
          have hne : ¬ (key x = p.1) := by
            rw [hk]; exact ne_of_lt hpk
          have hmem : p ∈ pyGroupby key (y :: t') := by
            rw [hg]; exact List.mem_cons_of_mem _ hp2
          rw [ih hst p hmem]
          simp [List.filter_cons, hne]
      · have hlt : key x < key y := lt_of_le_of_ne hxy hk
        have hres : pyGroupby key (x :: y :: t')
            = (key x, [x]) :: (key y, g0) :: rest0 := by
          rw [pyGroupby_cons, hg]
          simp [hk]
        rw [hres] at hp
        rcases List.mem_cons.mp hp with hp1 | hp2
        · subst hp1
          have hfn : (y :: t').filter
              (fun a => decide (key a = key x)) = [] := by
            refine List.filter_eq_nil_iff.mpr ?_
            intro a ha
            have h1 : key y ≤ key a := by
              rcases List.mem_cons.mp ha with h | h
              · rw [h]
              · exact List.rel_of_sorted_cons hst a h
            have h2 : key x < key a := lt_of_lt_of_le hlt h1
            simp [ne_of_gt h2]
          simp [List.filter_cons, hfn]
        · have hmem : p ∈ pyGroupby key (y :: t') := by
            rw [hg]; exact hp2
          have hxp : ¬ (key x = p.1) := by
            rcases List.mem_cons.mp hp2 with h1 | h2
            · intro he
              rw [h1] at he
              exact hk he
            · exact ne_of_lt (lt_trans hlt (hrel p h2))
          rw [ih hst p hmem]
          simp [List.filter_cons, hxp]

theorem pyDict_eq_none {κ β : Type} [DecidableEq κ] (ps : List (κ × β))
    (k : κ) (h : k ∉ ps.map Prod.fst) : pyDict ps k = none := by
  induction ps with
  | nil => rfl
  | cons q ps ih =>
    simp only [List.map_cons, List.mem_cons, not_or] at h
    simp [pyDict, ih h.2, h.1]

theorem pyDict_lookup {κ β : Type} [DecidableEq κ] (ps : List (κ × β))
    (hnd : (ps.map Prod.fst).Nodup) :
    ∀ p ∈ ps, pyDict ps p.1 = some p.2 := by
  induction ps with
  | nil => intro p hp; simp at hp
  | cons q ps ih =>
    intro p hp
    simp only [List.map_cons, List.nodup_cons] at hnd
    rcases List.mem_cons.mp hp with h1 | h2
    · subst h1
      simp [pyDict, pyDict_eq_none ps p.1 hnd.1]
    · simp [pyDict, ih hnd.2 p h2]

/-! ## Claim theorems -/

/-- C1: for every registered subcommand x, dispatching [help, x] returns the
same result as dispatching [x, -h]: the dispatcher re-invokes itself on the
synthesized list [x, -h], so the two results are identical by construction.
The subcommand name is required not to collide with the help flags, as every
plugin module name does. -/
theorem help_dispatch_equiv (modules : List PlugMod) (x : String)
    (hreg : x ∈ (parse_subcommands modules [x, "-h"]).subcmds.map Subcmd.name)
    (hx1 : x ≠ "-h") (hx2 : x ≠ "--help") :
    mainRun modules ["help", x] = mainRun modules [x, "-h"] := by
  have hcontains2 :
      ((parse_subcommands modules [x, "-h"]).subcmds.map
        Subcmd.name).contains x = true := by
    simpa using hreg
  have hhelp1 :
      ((parse_subcommands modules ["help", x]).subcmds.map
        Subcmd.name).contains "help" = true := by
    rw [parse_subcommands_subcmds]
    simp [helpSubcmd]
  have hxh : ([x].contains "-h") = false := by
    simpa using fun hc => hx1 hc.symm
  have hxhh : ([x].contains "--help") = false := by
    simpa using fun hc => hx2 hc.symm
  have key : ∀ fuel, mainF modules (fuel + 1) [x, "-h"]
      = MainResult.subHelp x := by
    intro fuel
    simp only [mainF]
    rw [hcontains2]
    simp
  have lhs : ∀ fuel, mainF modules (fuel + 1) ["help", x]
      = mainF modules fuel [x, "-h"] := by
    intro fuel
    simp only [mainF]
    rw [hhelp1, hxh, hxhh]
    simp
  have k2 : mainF modules 2 [x, "-h"] = MainResult.subHelp x := key 1
  have k1 : mainF modules 1 [x, "-h"] = MainResult.subHelp x := key 0
  have l2 : mainF modules 2 ["help", x] = mainF modules 1 [x, "-h"] := lhs 1
  show mainF modules 2 ["help", x] = mainF modules 2 [x, "-h"]
  rw [l2, k1, k2]

/-- C1 witness: with a concrete plugin list holding one importable module
named classify, dispatching [help, classify] and [classify, -h] agree. -/
theorem help_dispatch_equiv_witness :
    ("classify" ∈ (parse_subcommands demoModules
        ["classify", "-h"]).subcmds.map Subcmd.name
      ∧ "classify" ≠ "-h" ∧ "classify" ≠ "--help")
    ∧ mainRun demoModules ["help", "classify"]
        = mainRun demoModules ["classify", "-h"] :=
  ⟨⟨by decide, by decide, by decide⟩,
    help_dispatch_equiv demoModules "classify"
      (by decide) (by decide) (by decide)⟩

/-- C2: groupbyl sorts by key with a stable sort and partitions into runs of
equal key, so each output group with key k is exactly the sublist of input
elements whose key is k in input order (hence every element lies in exactly
one group and order is preserved), the group keys are pairwise distinct, the
concatenation of the groups is a permutation of the input, and the dict
materialization binds every group key to its group with nothing
overwritten. -/
theorem groupbyl_correct {α κ : Type} [LinearOrder κ] (li : List α)
    (key : α → κ) :
    (∀ p ∈ groupbyl li key,
        p.2 = li.filter (fun a => decide (key a = p.1)))
    ∧ ((groupbyl li key).map Prod.fst).Nodup
    ∧ ((groupbyl li key).map Prod.snd).flatten.Perm li
    ∧ (∀ p ∈ groupbyl li key, pyDict (groupbyl li key) p.1 = some p.2) := by
  have hnd : ((groupbyl li key).map Prod.fst).Nodup := by
    have hp := pyGroupby_keys_pairwise key (pySorted key li)
      (pySorted_sorted key li)
    have hm : ((groupbyl li key).map Prod.fst).Pairwise (· < ·) :=
      List.pairwise_map.mpr hp
    exact hm.imp ne_of_lt
  refine ⟨?_, hnd, ?_, ?_⟩
  · intro p hp
    have h := pyGroupby_filter key (pySorted key li)
      (pySorted_sorted key li) p hp
    rw [h, filter_key_pySorted]
  · have hj := pyGroupby_flatten key (pySorted key li)
    show ((pyGroupby key (pySorted key li)).map Prod.snd).flatten.Perm li
    rw [hj]
    exact List.perm_insertionSort (keyle key) li
  · intro p hp
    exact pyDict_lookup (groupbyl li key) hnd p hp

/-- C2 witness: grouping [12, 21, 22] by the last digit puts 12 and 22, in
input order, into the group keyed 2. -/
theorem groupbyl_correct_witness :
    (((2 : Nat), ([12, 22] : List Nat))
        ∈ groupbyl [12, 21, 22] (fun a => a % 10))
    ∧ ((2 : Nat), ([12, 22] : List Nat)).2
        = [12, 21, 22].filter (fun a => decide (a % 10 = ((2 : Nat), ([12, 22] : List Nat)).1)) :=
  ⟨by decide,
    (groupbyl_correct [12, 21, 22] (fun a => a % 10)).1
      (2, [12, 22]) (by decide)⟩

/-- C3: the function produced by opener(mode) returns the standard streams
unchanged, maps the sentinel dash to standard input in read modes and
standard output otherwise, and selects the codec of any other name by
suffix: .bz2 the bzip2 codec, .gz the gzip codec, anything else plain. -/
theorem open_file_cases (mode : String) :
    open_file mode .stdoutT = .stdoutS
    ∧ open_file mode .stdinT = .stdinS
    ∧ open_file mode (.path "-")
        = (if containsChar mode 'r' then FileStream.stdinS
           else FileStream.stdoutS)
    ∧ (∀ f, f ≠ "-" → endswith f ".bz2" = true →
        open_file mode (.path f) = .bz2open f mode)
    ∧ (∀ f, f ≠ "-" → endswith f ".bz2" = false → endswith f ".gz" = true →
        open_file mode (.path f) = .gzopen f mode)
    ∧ (∀ f, f ≠ "-" → endswith f ".bz2" = false → endswith f ".gz" = false →
        open_file mode (.path f) = .plainopen f mode) := by
  refine ⟨rfl, rfl, by simp [open_file], ?_, ?_, ?_⟩
  · intro f h1 h2
    simp [open_file, h1, h2]
  · intro f h1 h2 h3
    simp [open_file, h1, h2, h3]
  · intro f h1 h2 h3
    simp [open_file, h1, h2, h3]

/-- C3 witness: in mode rt a name ending in .bz2 is opened with the bzip2
codec. -/
theorem open_file_cases_witness :
    (("x.bz2" : String) ≠ "-" ∧ endswith "x.bz2" ".bz2" = true)
    ∧ open_file "rt" (.path "x.bz2") = .bz2open "x.bz2" "rt" :=
  ⟨⟨by decide, by decide⟩,
    (open_file_cases "rt").2.2.2.1 "x.bz2" (by decide) (by decide)⟩

/-- C4 counterexample: the claim that the resolver never raises for every
outcome of the package lookup is false: when both git queries fail and
pkg_resources.require raises a VersionConflict, the except clause of lines
220-221 (which names only DistributionNotFound) does not catch it and
version() propagates the exception. -/
theorem version_uncaught_pkg_exception :
    version badEnv = .error "VersionConflict" := rfl

/-- C4 amended: for every outcome of the two version-control queries, and
every outcome of the installed-package lookup other than an exception
different from DistributionNotFound, version() returns a string and raises
nothing; git-stage failures are always swallowed. -/
theorem version_never_raises_amended (env : VersionEnv)
    (h : ∀ e, env.pkg ≠ PkgOutcome.otherExc e) :
    ∃ s : String, version env = .ok s := by
  unfold version
  cases hv : versionLoop [env.git1, env.git2] with
  | some v => exact ⟨if v = "" then "0.0.0" else v, rfl⟩
  | none =>
    cases hp : env.pkg with
    | ok pv => exact ⟨if pv = "" then "0.0.0" else pv, rfl⟩
    | distNotFound m => exact ⟨"0.0.0", rfl⟩
    | otherExc e => exact absurd hp (h e)

/-- C4 witness: with both git commands failing and the package lookup
raising DistributionNotFound, version() returns a string. -/
theorem version_never_raises_amended_witness :
    (∀ e, dnfEnv.pkg ≠ PkgOutcome.otherExc e)
    ∧ ∃ s : String, version dnfEnv = .ok s := by
  have hne : ∀ e, dnfEnv.pkg ≠ PkgOutcome.otherExc e := by
    intro e hc
    exact nomatch hc
  exact ⟨hne, version_never_raises_amended dnfEnv hne⟩

/-- C5: at a successful describe query returning the docstring's own example
output (as bytes, which is what check_output returns on Python 3), the git
loop assigns no version — re.search with the str pattern of line 202 raises
TypeError on the bytes, caught by the bare except — so version() falls
through to the package lookup and yields 0.0.0 here, although the pattern
applied to the decoded text, as the claim and the docstring of lines 194-199
describe, would extract tag 0.1.2 and nonempty commit 38 and resolve
0.1.2.dev38. The tag/commit assignment of lines 206-209 is dead code. -/
theorem versionLoop_describe_dead_code :
    versionLoop [.ok ⟨"v0.1.2-38-g6a8e5e3".data⟩, .error "older git"] = none
    ∧ version ⟨.ok ⟨"v0.1.2-38-g6a8e5e3".data⟩, .error "older git",
        .distNotFound "classifier"⟩ = .ok "0.0.0"
    ∧ gitMatch "v0.1.2-38-g6a8e5e3".data = some ("0.1.2", "38")
    ∧ (if "38" = "" then "0.1.2" else "0.1.2" ++ ".dev" ++ "38")
        = "0.1.2.dev38" :=
  ⟨rfl, rfl, by decide, by decide⟩

/-- C6: verbosity 0, 1, 2 give levels ERROR, WARNING, INFO, and every
verbosity of three or more gives DEBUG. -/
theorem loglevel_mapping :
    loglevel 0 = ERROR ∧ loglevel 1 = WARNING ∧ loglevel 2 = INFO
      ∧ ∀ n, 3 ≤ n → loglevel n = DEBUG := by
  refine ⟨rfl, rfl, rfl, ?_⟩
  intro n hn
  match n, hn with
  | 3, _ => rfl
  | (m + 4), _ => rfl

/-- C6 witness: verbosity five maps to DEBUG. -/
theorem loglevel_mapping_witness : 3 ≤ 5 ∧ loglevel 5 = DEBUG :=
  ⟨by decide, loglevel_mapping.2.2.2 5 (by decide)⟩

/-- C7: a quiet flag stores the constant 0 into the verbosity destination,
so whatever tokens precede it, and whatever tokens follow as long as no
further verbose flag does, the configured level is ERROR. -/
theorem quiet_forces_error (pre post : List ArgTok)
    (h : ArgTok.verbose ∉ post) :
    loglevel (parseVerbosity (pre ++ ArgTok.quiet :: post)) = ERROR := by
  have hz : ∀ l : List ArgTok, ArgTok.verbose ∉ l →
      l.foldl stepVerbosity 0 = 0 := by
    intro l
    induction l with
    | nil => intro _; rfl
    | cons t ts ih =>
      intro hm
      have ht : t ≠ ArgTok.verbose :=
        fun he => hm (he ▸ List.mem_cons_self t ts)
      have hts : ArgTok.verbose ∉ ts :=
        fun hmem => hm (List.mem_cons_of_mem t hmem)
      cases t with
      | verbose => exact absurd rfl ht
      | quiet => simpa [stepVerbosity] using ih hts
      | other s => simpa [stepVerbosity] using ih hts
  unfold parseVerbosity
  rw [List.foldl_append, List.foldl_cons]
  have hq : stepVerbosity (List.foldl stepVerbosity 0 pre) ArgTok.quiet
      = 0 := rfl
  rw [hq, hz post h]
  rfl

/-- C7 witness: two verbose flags followed by quiet and an unrelated token
configure level ERROR. -/
theorem quiet_forces_error_witness :
    ArgTok.verbose ∉ [ArgTok.other "x"]
    ∧ loglevel (parseVerbosity
        ([ArgTok.verbose, ArgTok.verbose]
          ++ ArgTok.quiet :: [ArgTok.other "x"])) = ERROR :=
  ⟨by decide,
    quiet_forces_error [ArgTok.verbose, ArgTok.verbose]
      [ArgTok.other "x"] (by decide)⟩

/-- C8: over the considered modules, discovery logs exactly one error line
per module whose import raised (registering nothing for it) and registers a
subparser and a handler for every module that imported, independently of the
failures around it. -/
theorem parse_subcommands_isolation (modules : List PlugMod)
    (argv : List String) :
    (parse_subcommands modules argv).logErrors
        = (considered modules argv).filterMap errorOf
    ∧ (parse_subcommands modules argv).actions
        = (considered modules argv).filterMap actionOf
    ∧ (parse_subcommands modules argv).subcmds
        = helpSubcmd :: (considered modules argv).filterMap subcmdOf := by
  obtain ⟨h1, h2, h3⟩ := foldl_addModule_spec (considered modules argv)
    ⟨[helpSubcmd], [], []⟩
  refine ⟨?_, ?_, ?_⟩
  · simpa [parse_subcommands] using h3
  · simpa [parse_subcommands] using h2
  · simpa [parse_subcommands] using h1

/-- C10: the help pseudo-subcommand, with its single positional argument
named action taking one value, is the first subparser registered, before the
discovery loop, so every assembled grammar contains it, whatever the modules
and the argument list, including when every import fails. -/
theorem help_always_registered (modules : List PlugMod)
    (argv : List String) :
    (parse_subcommands modules argv).subcmds.head? = some helpSubcmd
    ∧ helpSubcmd.positionals = [("action", 1)] := by
  refine ⟨?_, rfl⟩
  rw [parse_subcommands_subcmds]
  rfl

/-- C9: at query outputs whose decoded text would match the pattern with
empty tag and empty commit (the bare letter v), the Python-3 code never
assigns the empty string: line 205 raises TypeError on the bytes (caught),
version stays None, and the package lookup is not skipped but runs — with
DistributionNotFound the final fallback produces 0.0.0 via None rather than
via the falsy empty string, and an uncaught lookup exception propagates
instead of 0.0.0. The empty-string branch of the fallback of line 223 is
unreachable. -/
theorem version_empty_tag_dead_code :
    gitMatch "v".data = some ("", "")
    ∧ versionLoop [.ok ⟨"v".data⟩, .ok ⟨"v".data⟩] = none
    ∧ version ⟨.ok ⟨"v".data⟩, .ok ⟨"v".data⟩, .distNotFound "classifier"⟩
        = .ok "0.0.0"
    ∧ version ⟨.ok ⟨"v".data⟩, .ok ⟨"v".data⟩, .otherExc "boom"⟩
        = .error "boom" :=
  ⟨by decide, rfl, rfl, rfl⟩
